import Mathlib

/-!
Verification of the ros2_fmt_logger rate-controlled log dispatcher.

Shallow embedding of `include/ros2_fmt_logger/ros2_fmt_logger.hpp`
(class `ros2_fmt_logger::Logger`).

Modelling choices:
* The external sink's severity gate `rcutils_logging_logger_is_enabled_for`
  is a parameter `e : Severity → Bool`.
* Time (`rclcpp::Time`) and durations (`rclcpp::Duration`) are `Int`
  nanosecond counts; `now - last_logged >= duration` is exact integer
  comparison, as in rclcpp.
* Deferred formatting (`fmt::vformat(format.str, args)`) is modelled by a
  per-call value `fm : Except String String`: `.ok msg` when formatting
  would succeed with result `msg`, `.error err` when `fmt` would throw a
  `fmt::format_error`. C++ exception propagation becomes the middle
  `Option String` component of each operation's result; side effects that
  happened before a throw (sink emissions, state assignments already
  executed) are retained, matching C++ semantics.
* Each operation returns `(emitted records, thrown error, new static state)`.
  The static state corresponds to the function-local `static` variable of
  the corresponding template instantiation (one cell per call site).
-/

namespace Ros2FmtLogger

/-- The five rcutils severities used by the logger
(`RCUTILS_LOG_SEVERITY_{DEBUG,INFO,WARN,ERROR,FATAL}`). -/
inductive Severity where
  | Debug
  | Info
  | Warn
  | Error
  | Fatal
deriving DecidableEq, Repr

/-- Whether `s` has the two-character scope separator `::` starting at
index `j` (within bounds). Used to embed `std::string_view::rfind`. -/
def isCCAt (s : List Char) (j : Nat) : Bool :=
  s[j]? == some ':' && s[j + 1]? == some ':'

/-- Embedding of `full_signature.rfind("::", pos)`: the largest start index
`j ≤ pos` at which `::` occurs in `s`, or `none` when there is no such
occurrence (C++ `npos`). -/
def rfindCC (s : List Char) : Nat → Option Nat
  | 0 => if isCCAt s 0 then some 0 else none
  | j + 1 => if isCCAt s (j + 1) then some (j + 1) else rfindCC s j

/-- Embedding of `Logger::extract_function_name`: find the first `'('`
(`full_signature.find('(')`); if absent return the whole signature;
otherwise take the substring from just after the last `::` before the
parenthesis (or from the start if there is none) up to the parenthesis
(`full_signature.substr(start, parenthesis - start)`). -/
def extract_function_name (s : List Char) : List Char :=
  match s.findIdx? (fun c => c == '(') with
  | none => s
  | some parenthesis =>
    let start :=
      match rfindCC s parenthesis with
      | none => 0
      | some last_colon => last_colon + 2
    (s.drop start).take (parenthesis - start)

/-- One record handed to the sink by `rcutils_log`: severity, logger name,
extracted function name, and the fully formatted message. -/
structure LogRecord where
  severity : Severity
  name : String
  functionName : List Char
  message : String
deriving DecidableEq, Repr

/-- Embedding of the private `Logger::log`: consult the sink's severity
gate; only when enabled, format the message (which may throw a
`fmt::format_error`, modelled by `fm = .error err`) and emit one record
carrying the extracted function name. Returns (emissions, thrown error). -/
def log (e : Severity → Bool) (n : String) (sig : List Char) (sev : Severity)
    (fm : Except String String) : List LogRecord × Option String :=
  if e sev then
    match fm with
    | .ok msg => ([⟨sev, n, extract_function_name sig, msg⟩], none)
    | .error err => ([], some err)
  else ([], none)

/-- Embedding of `Logger::log_once`. The static state is the
`static bool already_logged` of the call site's template instantiation.
Note the source order: `already_logged = true;` executes *before*
`log(severity, format, args)`, so the flag is set even if formatting
throws. -/
def log_once (e : Severity → Bool) (n : String) (sig : List Char) (sev : Severity)
    (fm : Except String String) (already_logged : Bool) :
    List LogRecord × Option String × Bool :=
  if already_logged then ([], none, already_logged)
  else
    let r := log e n sig sev fm
    (r.1, r.2, true)

/-- The qualified signature captured by `std::source_location::current()`
at the `log(RCUTILS_LOG_SEVERITY_ERROR, "repl", ...)` call inside
`Logger::log_throttle` (the implicit `format_with_loc` conversion captures
the location of that interior call, not the user's call site). -/
def throttleSig : List Char :=
  "void ros2_fmt_logger::Logger::log_throttle(const RCUTILS_LOG_SEVERITY, const rclcpp::Duration &, const format_with_loc &, const fmt::format_args &) const".toList

/-- Embedding of `Logger::log_throttle`. The static state is the
`static rclcpp::Time last_logged` of the call site, *initialized to time
zero* (`rclcpp::Time(static_cast<int64_t>(0), ...)`). `clk` is the result
of `clock_.now()`: `.error ce` models the `rclcpp::exceptions::RCLError`
throw, in which case the catch block first logs `ce` at ERROR severity and
then logs the original message unconditionally. On the success path the
assignment `last_logged = now` precedes the `log` call, so the timestamp
advances even if formatting throws. -/
def log_throttle (e : Severity → Bool) (n : String) (sig : List Char) (sev : Severity)
    (D : Int) (clk : Except String Int) (last_logged : Int)
    (fm : Except String String) : List LogRecord × Option String × Int :=
  match clk with
  | .ok now =>
    if D ≤ now - last_logged then
      let r := log e n sig sev fm
      (r.1, r.2, now)
    else ([], none, last_logged)
  | .error ce =>
    let r1 := log e n throttleSig Severity.Error (.ok ce)
    match r1.2 with
    | some er => (r1.1, some er, last_logged)
    | none =>
      let r2 := log e n sig sev fm
      (r1.1 ++ r2.1, r2.2, last_logged)

/-- Embedding of the equality overload of `Logger::log_on_change`. The
static state is the `static std::optional<T> last_value` of the call site.
Source order matters: in the comparing branch `log` runs *before*
`last_value = value`, so a formatting throw leaves the baseline
unchanged. -/
def log_on_change {T : Type} [DecidableEq T] (e : Severity → Bool) (n : String)
    (sig : List Char) (sev : Severity) (value : T) (fm : Except String String)
    (last_value : Option T) : List LogRecord × Option String × Option T :=
  match last_value with
  | none => ([], none, some value)
  | some last =>
    if last ≠ value then
      let r := log e n sig sev fm
      match r.2 with
      | some er => (r.1, some er, some last)
      | none => (r.1, none, some value)
    else ([], none, some last)

/-- Embedding of the thresholded overload of `Logger::log_on_change`
(`std::abs(value - last_value.value()) >= threshold`), with numeric values
as `Int`. As in the equality overload, a formatting throw happens before
the `last_value = value` assignment and leaves the baseline unchanged. -/
def log_on_change_t (e : Severity → Bool) (n : String) (sig : List Char)
    (sev : Severity) (value threshold : Int) (fm : Except String String)
    (last_value : Option Int) : List LogRecord × Option String × Option Int :=
  match last_value with
  | none => ([], none, some value)
  | some last =>
    if threshold ≤ |value - last| then
      let r := log e n sig sev fm
      match r.2 with
      | some er => (r.1, some er, some last)
      | none => (r.1, none, some value)
    else ([], none, some last)

/-- Repeated invocation of one `once` call site: thread the
`already_logged` static through a sequence of calls, collecting each
call's (emissions, thrown error). -/
def runOnce (e : Severity → Bool) (n : String) (sig : List Char) (sev : Severity) :
    List (Except String String) → Bool →
    List (List LogRecord × Option String) × Bool
  | [], st => ([], st)
  | fm :: rest, st =>
    let r := log_once e n sig sev fm st
    let rs := runOnce e n sig sev rest r.2.2
    ((r.1, r.2.1) :: rs.1, rs.2)

/-- Repeated invocation of one throttled call site with successful clock
reads: each call supplies its clock time and its formatting outcome. -/
def runThrottle (e : Severity → Bool) (n : String) (sig : List Char) (sev : Severity)
    (D : Int) : List (Int × Except String String) → Int →
    List (List LogRecord × Option String) × Int
  | [], st => ([], st)
  | (t, fm) :: rest, st =>
    let r := log_throttle e n sig sev D (.ok t) st fm
    let rs := runThrottle e n sig sev D rest r.2.2
    ((r.1, r.2.1) :: rs.1, rs.2)

/-- Repeated invocation of one equality on-change call site. -/
def runOnChangeEq {T : Type} [DecidableEq T] (e : Severity → Bool) (n : String)
    (sig : List Char) (sev : Severity) :
    List (T × Except String String) → Option T →
    List (List LogRecord × Option String) × Option T
  | [], st => ([], st)
  | (v, fm) :: rest, st =>
    let r := log_on_change e n sig sev v fm st
    let rs := runOnChangeEq e n sig sev rest r.2.2
    ((r.1, r.2.1) :: rs.1, rs.2)

/-- Repeated invocation of one thresholded on-change call site with a fixed
threshold. -/
def runOnChangeT (e : Severity → Bool) (n : String) (sig : List Char) (sev : Severity)
    (th : Int) : List (Int × Except String String) → Option Int →
    List (List LogRecord × Option String) × Option Int
  | [], st => ([], st)
  | (v, fm) :: rest, st =>
    let r := log_on_change_t e n sig sev v th fm st
    let rs := runOnChangeT e n sig sev th rest r.2.2
    ((r.1, r.2.1) :: rs.1, rs.2)

/-- Per-call emission indicator of a run: `true` when that call handed at
least one record to the sink. -/
def emitsOf (outs : List (List LogRecord × Option String)) : List Bool :=
  outs.map (fun p => !p.1.isEmpty)

/-- Specification-side throttle decision trace: given the stored timestamp
`st`, which of the calls at the given times satisfy the elapsed-time test
(and thereby advance the timestamp). -/
def emitFlags (D : Int) (st : Int) : List Int → List Bool
  | [] => []
  | t :: ts => if D ≤ t - st then true :: emitFlags D t ts else false :: emitFlags D st ts

/-- Specification-side list of the clock times at which a throttled call
site emits, starting from stored timestamp `st`. -/
def emitTimes (D : Int) (st : Int) : List Int → List Int
  | [] => []
  | t :: ts => if D ≤ t - st then t :: emitTimes D t ts else emitTimes D st ts

/-- Specification-side evolution of the throttle timestamp across a
sequence of successful clock reads. -/
def throttleStates (D : Int) (st : Int) (ts : List Int) : Int :=
  ts.foldl (fun s t => if D ≤ t - s then t else s) st

/-- Specification-side on-change decision trace: emission at step `i` iff
the observed value differs from the immediately preceding observation. -/
def changeFlags {T : Type} [DecidableEq T] (prev : T) : List T → List Bool
  | [] => []
  | v :: rest => (decide (v ≠ prev)) :: changeFlags v rest

/-- Modelled from the spec: the enclosing-function name is "the substring
strictly between the last occurrence of the scope separator `::` preceding
that parenthesis and the parenthesis itself (or from the start of the
string when no scope separator precedes the parenthesis)", where the
parenthesis is the parameter list's opening parenthesis (the first `'('`).
The last occurrence is obtained with `Nat.findGreatest`. -/
def specFunctionName (s : List Char) : List Char :=
  match s.findIdx? (fun c => c == '(') with
  | none => s
  | some p =>
    if isCCAt s (Nat.findGreatest (fun j => isCCAt s j = true) p)
    then (s.take p).drop (Nat.findGreatest (fun j => isCCAt s j = true) p + 2)
    else s.take p

/-- Specification-side expected per-call outputs of an equality on-change
call site starting from baseline `prev`: call `i` emits the (formatted)
message for `vᵢ` iff `vᵢ` differs from the preceding observation. -/
def expectedEqOutputs {T : Type} [DecidableEq T] (sev : Severity) (n : String)
    (fn : List Char) (ms : T → String) (prev : T) :
    List T → List (List LogRecord × Option String)
  | [] => []
  | v :: rest =>
    ((if v ≠ prev then [⟨sev, n, fn, ms v⟩] else []), none)
      :: expectedEqOutputs sev n fn ms v rest

section HelperLemmas

/-- When the severity is disabled, `log` emits nothing, throws nothing, and
never consults the formatting result. -/
theorem log_disabled (e : Severity → Bool) (n : String) (sig : List Char)
    (sev : Severity) (fm : Except String String) (hd : e sev = false) :
    log e n sig sev fm = ([], none) := by
  simp [log, hd]

/-- When the severity is enabled and formatting succeeds, `log` emits
exactly one record and throws nothing. -/
theorem log_enabled_ok (e : Severity → Bool) (n : String) (sig : List Char)
    (sev : Severity) (m : String) (he : e sev = true) :
    log e n sig sev (.ok m) = ([⟨sev, n, extract_function_name sig, m⟩], none) := by
  simp [log, he]

/-- When the severity is enabled and formatting fails, `log` emits nothing
and rethrows the formatting error. -/
theorem log_enabled_err (e : Severity → Bool) (n : String) (sig : List Char)
    (sev : Severity) (em : String) (he : e sev = true) :
    log e n sig sev (.error em) = ([], some em) := by
  simp [log, he]

/-- Once `already_logged` is `true`, every further call through the same
call site emits nothing, throws nothing, and leaves the flag `true`. -/
theorem runOnce_already (e : Severity → Bool) (n : String) (sig : List Char)
    (sev : Severity) :
    ∀ calls : List (Except String String),
      runOnce e n sig sev calls true = (calls.map (fun _ => ([], none)), true) := by
  intro calls
  induction calls with
  | nil => rfl
  | cons fm rest ih => simp [runOnce, log_once, ih]

end HelperLemmas

/-- C1: the claim as stated is FALSE. Concrete input: a sink for which
every severity is disabled, a `once` call site whose `already_logged`
static is still `false`. The call consults the severity gate only inside
the final `log` step, *after* the once bookkeeping, so it mutates the
rate-control state: `already_logged` becomes `true` even though the
severity is disabled. -/
theorem c1_counterexample :
    ((fun _ => false) : Severity → Bool) Severity.Fatal = false ∧
    (log_once (fun _ => false) "ns" [] Severity.Fatal (.ok "msg") false).2.2 ≠ false := by
  exact ⟨rfl, by decide⟩

/-- C1 (amended): when the sink reports the severity as disabled, no
formatting occurs (the formatting result is never consulted) and nothing
is emitted or thrown, but the rate-control bookkeeping still runs exactly
as when enabled: the once flag is set, the throttle timestamp advances
whenever the elapsed-time test passes, and the on-change baseline is
updated according to the comparison; the severity gate is consulted only
at the final emission step inside `log`. -/
theorem c1_amended_gating (e : Severity → Bool) (n : String) (sig : List Char)
    (sev : Severity) (hd : e sev = false) :
    (∀ fm, log e n sig sev fm = ([], none)) ∧
    (∀ fm st, log_once e n sig sev fm st = ([], none, true)) ∧
    (∀ fm (D t st : Int), log_throttle e n sig sev D (.ok t) st fm
        = ([], none, if D ≤ t - st then t else st)) ∧
    (∀ (v : Int) fm st, log_on_change e n sig sev v fm st = ([], none, some v)) ∧
    (∀ (v th : Int) fm, log_on_change_t e n sig sev v th fm none = ([], none, some v)) ∧
    (∀ (v th b : Int) fm, log_on_change_t e n sig sev v th fm (some b)
        = ([], none, if th ≤ |v - b| then some v else some b)) := by
  refine ⟨fun fm => log_disabled e n sig sev fm hd,
    fun fm st => ?_, fun fm D t st => ?_, fun v fm st => ?_,
    fun v th fm => rfl, fun v th b fm => ?_⟩
  · cases st <;> simp [log_once, log, hd]
  · by_cases h : D ≤ t - st <;> simp [log_throttle, log, hd, h]
  · cases st with
    | none => rfl
    | some last =>
      by_cases h : last = v
      · subst h; simp [log_on_change]
      · simp [log_on_change, log, hd, h]
  · by_cases h : th ≤ |v - b| <;> simp [log_on_change_t, log, hd, h]

/-- Witness for `c1_amended_gating` at a concrete input: with an
all-disabled sink, a `once` call from the unlogged state emits nothing yet
sets the flag. -/
theorem c1_amended_gating_witness :
    log_once (fun _ => false) "ns" [] Severity.Fatal (.ok "x") false = ([], none, true) :=
  (c1_amended_gating (fun _ => false) "ns" [] Severity.Fatal rfl).2.1 (.ok "x") false

/-- C2: the claim as stated is FALSE. Concrete input: severity enabled,
throttle duration 10, the call site's `last_logged` static at its initial
value (time zero — the sentinel is `rclcpp::Time(0)`, not "never"), and a
clock whose current time is 5. The elapsed-time test `5 - 0 >= 10` fails,
so the very first invocation emits nothing. -/
theorem c2_counterexample :
    (log_throttle (fun _ => true) "ns" [] Severity.Fatal 10 (.ok 5) 0 (.ok "msg")).1 = [] := by
  decide

/-- C2 (amended): the stored sentinel is time zero, not "never". With the
severity enabled and formatting succeeding, the first invocation of a
throttled call site (stored timestamp still 0) emits iff the clock's
current time `t0` satisfies `t0 ≥ D`; when it emits, the timestamp
becomes `t0`, otherwise it stays 0. -/
theorem c2_amended_first_emit (e : Severity → Bool) (n : String) (sig : List Char)
    (sev : Severity) (D t0 : Int) (m : String) (he : e sev = true) :
    log_throttle e n sig sev D (.ok t0) 0 (.ok m)
      = if D ≤ t0 then ([⟨sev, n, extract_function_name sig, m⟩], none, t0)
        else ([], none, 0) := by
  by_cases h : D ≤ t0 <;>
    simp [log_throttle, log, he, sub_zero, h]

/-- Witness for `c2_amended_first_emit`: a first call at clock time 100
with duration 10 emits and stores 100. -/
theorem c2_amended_first_emit_witness :
    log_throttle (fun _ => true) "ns" [] Severity.Warn 10 (.ok 100) 0 (.ok "m")
      = if (10 : Int) ≤ 100
        then ([⟨Severity.Warn, "ns", extract_function_name [], "m"⟩], none, (100 : Int))
        else ([], none, 0) :=
  c2_amended_first_emit (fun _ => true) "ns" [] Severity.Warn 10 100 "m" rfl

/-- C3: the claim as stated is FALSE. Concrete input: severity enabled,
threshold 5, observation sequence `v₀ = 0, v₁ = 3`. After call 1 the
claim demands the stored baseline be `v₁ = 3`; the code only executes
`last_value = value` inside the triggered branch, and `|3 - 0| = 3 < 5`
does not trigger it, so the stored baseline remains `0`. -/
theorem c3_counterexample :
    (runOnChangeT (fun _ => true) "ns" [] Severity.Fatal 5
        [(0, .ok "a"), (3, .ok "b")] none).2 = some 0 ∧
    (some (0 : Int) ≠ some 3) := by
  exact ⟨by decide, by decide⟩

/-- C3 (amended): in the thresholded on-change, the stored baseline is
updated to the observed value only when the comparison triggers the branch
(first observation, or `|value − baseline| ≥ threshold`); a suppressed
call leaves the baseline unchanged, so the comparison at the next step is
against the last *recorded* value (the first observation or the most
recent emission), not the most recent observation. With severity enabled
and formatting succeeding, one step from baseline `b` is exactly: emit and
store `v` if `threshold ≤ |v − b|`, else emit nothing and keep `b`. -/
theorem c3_amended_baseline (e : Severity → Bool) (n : String) (sig : List Char)
    (sev : Severity) (b v th : Int) (m : String) (he : e sev = true) :
    log_on_change_t e n sig sev v th (.ok m) (some b)
      = if th ≤ |v - b| then ([⟨sev, n, extract_function_name sig, m⟩], none, some v)
        else ([], none, some b) := by
  by_cases h : th ≤ |v - b| <;> simp [log_on_change_t, log, he, h]

/-- Witness for `c3_amended_baseline`: baseline 0, value 3, threshold 5:
suppressed, baseline stays 0. -/
theorem c3_amended_baseline_witness :
    log_on_change_t (fun _ => true) "ns" [] Severity.Fatal 3 5 (.ok "m") (some 0)
      = if (5 : Int) ≤ |3 - 0| then ([⟨Severity.Fatal, "ns", extract_function_name [], "m"⟩], none, some (3 : Int))
        else ([], none, some 0) :=
  c3_amended_baseline (fun _ => true) "ns" [] Severity.Fatal 0 3 5 "m" rfl

/-- C4: once semantics. With the severity enabled, a call site invoked
`N = 1 + rest.length ≥ 1` times emits exactly one record, the one
formatted from the first invocation's pattern and arguments (the later
formatting outcomes are never even consulted); and once the
`already_logged` flag is `true`, any further sequence of calls leaves it
`true` and emits nothing. -/
theorem c4_once_exactly_one (e : Severity → Bool) (n : String) (sig : List Char)
    (sev : Severity) (m : String) (rest : List (Except String String))
    (he : e sev = true) :
    runOnce e n sig sev (.ok m :: rest) false
      = (([⟨sev, n, extract_function_name sig, m⟩], none)
          :: rest.map (fun _ => ([], none)), true) ∧
    ∀ calls, runOnce e n sig sev calls true = (calls.map (fun _ => ([], none)), true) := by
  refine ⟨?_, runOnce_already e n sig sev⟩
  simp [runOnce, log_once, log, he, runOnce_already]

/-- Witness for `c4_once_exactly_one`: three calls at one call site emit
only the first message. -/
theorem c4_once_exactly_one_witness :
    runOnce (fun _ => true) "ns" [] Severity.Fatal
        (.ok "first" :: [.ok "second", .ok "third"]) false
      = (([⟨Severity.Fatal, "ns", extract_function_name [], "first"⟩], none)
          :: ([Except.ok "second", Except.ok "third"] : List (Except String String)).map
              (fun _ => ([], none)), true) :=
  (c4_once_exactly_one (fun _ => true) "ns" [] Severity.Fatal "first"
    [.ok "second", .ok "third"] rfl).1

/-- C10: the `already_logged` flag is assigned `true` before `log` runs
(so before any formatting): the resulting flag is `true` for *every*
formatting outcome. Consequently, when the first invocation's formatting
fails, the error propagates, nothing is emitted, and every subsequent
invocation of the call site is suppressed — the call site never emits. -/
theorem c10_once_flag_set_before_format (e : Severity → Bool) (n : String)
    (sig : List Char) (sev : Severity) (em : String)
    (rest : List (Except String String)) (he : e sev = true) :
    (∀ fm, (log_once e n sig sev fm false).2.2 = true) ∧
    runOnce e n sig sev (.error em :: rest) false
      = (([], some em) :: rest.map (fun _ => ([], none)), true) := by
  constructor
  · intro fm; simp [log_once]
  · simp [runOnce, log_once, log, he, runOnce_already]

/-- Witness for `c10_once_flag_set_before_format`: a first call whose
formatting fails, followed by two more calls: no emission ever, the error
surfaces once, and the flag ends `true`. -/
theorem c10_once_flag_set_before_format_witness :
    runOnce (fun _ => true) "ns" [] Severity.Error
        (.error "bad pattern" :: [.ok "a", .ok "b"]) false
      = (([], some "bad pattern")
          :: ([Except.ok "a", Except.ok "b"] : List (Except String String)).map
              (fun _ => ([], none)), true) :=
  (c10_once_flag_set_before_format (fun _ => true) "ns" [] Severity.Error
    "bad pattern" [.ok "a", .ok "b"] rfl).2

/-- C7: clock-failure handling in `log_throttle`. When `clock_.now()`
throws (modelled by `clk = .error ce`) and both ERROR and the requested
severity are enabled for the logger, the dispatcher first emits one
ERROR-severity record carrying the failure description through the same
sink, then emits the originally requested message at its requested
severity without consulting the elapsed-time test (fail-open); the stored
timestamp is left unchanged and no error escapes. -/
theorem c7_clock_failure_fail_open (e : Severity → Bool) (n : String)
    (sig : List Char) (sev : Severity) (D st : Int) (ce m : String)
    (hE : e Severity.Error = true) (he : e sev = true) :
    log_throttle e n sig sev D (.error ce) st (.ok m)
      = ([⟨Severity.Error, n, extract_function_name throttleSig, ce⟩,
          ⟨sev, n, extract_function_name sig, m⟩], none, st) := by
  simp [log_throttle, log, hE, he]

/-- Witness for `c7_clock_failure_fail_open`: a failed clock read at an
all-enabled sink produces the ERROR diagnostic followed by the original
WARN message, with the timestamp untouched. -/
theorem c7_clock_failure_fail_open_witness :
    log_throttle (fun _ => true) "ns" [] Severity.Warn 10
        (.error "clock not initialized") 42 (.ok "m")
      = ([⟨Severity.Error, "ns", extract_function_name throttleSig, "clock not initialized"⟩,
          ⟨Severity.Warn, "ns", extract_function_name [], "m"⟩], none, 42) :=
  c7_clock_failure_fail_open (fun _ => true) "ns" [] Severity.Warn 10 42
    "clock not initialized" "m" rfl rfl

/-- C8: a formatting failure (modelled by `fm = .error em`) propagates out
of every logging operation as the thrown-error component, whenever the
operation reaches the formatting step: plain `log`; `log_once` from the
unlogged state; `log_throttle` both when the elapsed-time test passes and
on the clock-failure fail-open path; and both `log_on_change` overloads
when the comparison triggers. No operation swallows the error. -/
theorem c8_format_error_propagates (e : Severity → Bool) (n : String)
    (sig : List Char) (sev : Severity) (em ce : String) (D t st : Int)
    (b v bt vt th : Int) (he : e sev = true) :
    (log e n sig sev (.error em)).2 = some em ∧
    (log_once e n sig sev (.error em) false).2.1 = some em ∧
    (D ≤ t - st → (log_throttle e n sig sev D (.ok t) st (.error em)).2.1 = some em) ∧
    (log_throttle e n sig sev D (.error ce) st (.error em)).2.1 = some em ∧
    (b ≠ v → (log_on_change e n sig sev v (.error em) (some b)).2.1 = some em) ∧
    (th ≤ |vt - bt| → (log_on_change_t e n sig sev vt th (.error em) (some bt)).2.1 = some em) := by
  refine ⟨by simp [log, he], by simp [log_once, log, he], fun h => ?_, ?_,
    fun h => ?_, fun h => ?_⟩
  · simp [log_throttle, log, he, h]
  · by_cases hE : e Severity.Error = true <;> simp [log_throttle, log, he, hE]
  · simp [log_on_change, log, he, Ne.symm h, h]
  · simp [log_on_change_t, log, he, h]

/-- Witness for `c8_format_error_propagates`: concrete instantiation with
an enabled sink; the nested elapsed-time / comparison hypotheses are
discharged at `t = 20, st = 0, D = 10`, `b = 0 ≠ v = 1`, and
`|7 - 0| ≥ 5`. -/
theorem c8_format_error_propagates_witness :
    (log (fun _ => true) "ns" [] Severity.Info (.error "boom")).2 = some "boom" ∧
    (log_once (fun _ => true) "ns" [] Severity.Info (.error "boom") false).2.1 = some "boom" ∧
    ((10 : Int) ≤ 20 - 0 →
      (log_throttle (fun _ => true) "ns" [] Severity.Info 10 (.ok 20) 0 (.error "boom")).2.1
        = some "boom") ∧
    (log_throttle (fun _ => true) "ns" [] Severity.Info 10 (.error "ck") 0 (.error "boom")).2.1
      = some "boom" ∧
    ((0 : Int) ≠ 1 →
      (log_on_change (fun _ => true) "ns" [] Severity.Info (1 : Int) (.error "boom")
          (some 0)).2.1 = some "boom") ∧
    ((5 : Int) ≤ |7 - 0| →
      (log_on_change_t (fun _ => true) "ns" [] Severity.Info 7 5 (.error "boom")
          (some 0)).2.1 = some "boom") :=
  c8_format_error_propagates (fun _ => true) "ns" [] Severity.Info "boom" "ck"
    10 20 0 0 1 0 7 5 rfl

/-- From an established baseline `prev`, an equality on-change call site
behaves exactly as `expectedEqOutputs`, and the stored baseline ends at
the last observation (or stays `prev` when there are none). -/
theorem runOnChangeEq_from_some {T : Type} [DecidableEq T] (e : Severity → Bool)
    (n : String) (sig : List Char) (sev : Severity) (ms : T → String)
    (he : e sev = true) :
    ∀ (vs : List T) (prev : T),
      runOnChangeEq e n sig sev (vs.map fun v => (v, .ok (ms v))) (some prev)
        = (expectedEqOutputs sev n (extract_function_name sig) ms prev vs,
           some (vs.getLastD prev)) := by
  intro vs
  induction vs with
  | nil => intro prev; rfl
  | cons v rest ih =>
    intro prev
    by_cases h : prev = v
    · subst h
      simp [runOnChangeEq, log_on_change, expectedEqOutputs, ih,
        List.getLast?_cons, List.getLastD_eq_getLast?]
    · simp [runOnChangeEq, log_on_change, log, he, h, Ne.symm h,
        expectedEqOutputs, ih, List.getLast?_cons, List.getLastD_eq_getLast?]

/-- The per-call emission indicators of `expectedEqOutputs` are exactly
the change indicators against the previous observation. -/
theorem emitsOf_expectedEqOutputs {T : Type} [DecidableEq T] (sev : Severity)
    (n : String) (fn : List Char) (ms : T → String) :
    ∀ (vs : List T) (prev : T),
      emitsOf (expectedEqOutputs sev n fn ms prev vs) = changeFlags prev vs := by
  intro vs
  induction vs with
  | nil => intro prev; rfl
  | cons v rest ih =>
    intro prev
    have ihv := ih v
    unfold emitsOf at ihv ⊢
    by_cases h : v = prev
    · subst h
      simp [expectedEqOutputs, changeFlags, ihv]
    · simp [expectedEqOutputs, changeFlags, h, ihv]

/-- C6: equality on-change. With the severity enabled and formatting
succeeding, for the observation sequence `v₀ :: vs`: the first call emits
nothing and records `v₀` as baseline; call `i > 0` emits (the message for
`vᵢ`) iff `vᵢ` differs from the immediately preceding observation
`vᵢ₋₁`; the final stored baseline is the last observation, and after
every prefix of calls the stored baseline equals that prefix's last
observation. -/
theorem c6_on_change_equality {T : Type} [DecidableEq T] (e : Severity → Bool)
    (n : String) (sig : List Char) (sev : Severity) (ms : T → String)
    (v0 : T) (vs : List T) (he : e sev = true) :
    runOnChangeEq e n sig sev ((v0 :: vs).map fun v => (v, .ok (ms v))) none
      = (([], none) :: expectedEqOutputs sev n (extract_function_name sig) ms v0 vs,
         some (vs.getLastD v0)) ∧
    emitsOf (runOnChangeEq e n sig sev ((v0 :: vs).map fun v => (v, .ok (ms v))) none).1
      = false :: changeFlags v0 vs ∧
    (∀ k, (runOnChangeEq e n sig sev
            (((v0 :: vs).take (k + 1)).map fun v => (v, .ok (ms v))) none).2
          = some ((vs.take k).getLastD v0)) := by
  have hmain : runOnChangeEq e n sig sev ((v0 :: vs).map fun v => (v, .ok (ms v))) none
      = (([], none) :: expectedEqOutputs sev n (extract_function_name sig) ms v0 vs,
         some (vs.getLastD v0)) := by
    simp [runOnChangeEq, log_on_change, runOnChangeEq_from_some e n sig sev ms he vs v0]
  refine ⟨hmain, ?_, ?_⟩
  · rw [hmain]
    have h2 := emitsOf_expectedEqOutputs sev n (extract_function_name sig) ms vs v0
    unfold emitsOf at h2 ⊢
    simp [h2]
  · intro k
    have hsplit : (v0 :: vs).take (k + 1) = v0 :: vs.take k := by
      simp [List.take_cons]
    rw [hsplit, List.map_cons]
    have h3 := runOnChangeEq_from_some e n sig sev ms he (vs.take k) v0
    simp only [runOnChangeEq, log_on_change]
    rw [h3]

/-- Witness for `c6_on_change_equality`: the sequence `[100, 100, 100, 200, 200]`
(spec scenario 4) — no emission for the three 100s, one emission at 200,
none for the repeat. -/
theorem c6_on_change_equality_witness :
    runOnChangeEq (fun _ => true) "ns" [] Severity.Fatal
        (((100 : Int) :: [100, 100, 200, 200]).map fun v => (v, .ok (toString v))) none
      = (([], none)
          :: expectedEqOutputs Severity.Fatal "ns" (extract_function_name [])
              (fun v => toString v) 100 [100, 100, 200, 200],
         some (([100, 100, 200, 200] : List Int).getLastD 100)) ∧
    emitsOf (runOnChangeEq (fun _ => true) "ns" [] Severity.Fatal
        (((100 : Int) :: [100, 100, 200, 200]).map fun v => (v, .ok (toString v))) none).1
      = false :: changeFlags (100 : Int) [100, 100, 200, 200] ∧
    (∀ k, (runOnChangeEq (fun _ => true) "ns" [] Severity.Fatal
            ((((100 : Int) :: [100, 100, 200, 200]).take (k + 1)).map
              fun v => (v, .ok (toString v))) none).2
          = some ((([100, 100, 200, 200] : List Int).take k).getLastD 100)) :=
  c6_on_change_equality (fun _ => true) "ns" [] Severity.Fatal
    (fun v => toString v) 100 [100, 100, 200, 200] rfl

/-- On a successful clock read, the stored throttle timestamp evolves
independently of the severity gate and of the formatting outcome: it
becomes `now` exactly when the elapsed-time test passes (the assignment
`last_logged = now` precedes the `log` call). -/
theorem log_throttle_state_ok (e : Severity → Bool) (n : String) (sig : List Char)
    (sev : Severity) (D t st : Int) (fm : Except String String) :
    (log_throttle e n sig sev D (.ok t) st fm).2.2 = if D ≤ t - st then t else st := by
  by_cases h : D ≤ t - st <;> simp [log_throttle, h]

/-- The final timestamp of a throttled run with successful clock reads is
`throttleStates` of the call times. -/
theorem runThrottle_state (e : Severity → Bool) (n : String) (sig : List Char)
    (sev : Severity) (D : Int) :
    ∀ (calls : List (Int × Except String String)) (st : Int),
      (runThrottle e n sig sev D calls st).2
        = throttleStates D st (calls.map Prod.fst) := by
  intro calls
  induction calls with
  | nil => intro st; rfl
  | cons c rest ih =>
    intro st
    obtain ⟨t, fm⟩ := c
    simp only [runThrottle, throttleStates, List.map_cons, List.foldl_cons]
    rw [log_throttle_state_ok, ih]
    by_cases h : D ≤ t - st <;> simp [throttleStates, h]

/-- With the severity enabled and every call's formatting succeeding, the
per-call emission indicators of a throttled run are `emitFlags`. -/
theorem runThrottle_flags (e : Severity → Bool) (n : String) (sig : List Char)
    (sev : Severity) (D : Int) (m : String) (he : e sev = true) :
    ∀ (ts : List Int) (st : Int),
      emitsOf (runThrottle e n sig sev D (ts.map fun u => (u, .ok m)) st).1
        = emitFlags D st ts := by
  intro ts
  induction ts with
  | nil => intro st; rfl
  | cons t rest ih =>
    intro st
    have iht := ih t
    have ihs := ih st
    unfold emitsOf at iht ihs ⊢
    by_cases h : D ≤ t - st <;>
      simp [runThrottle, log_throttle, log, he, h, emitFlags, iht, ihs]

/-- When no call passes the elapsed-time test, the timestamp never
moves. -/
theorem throttleStates_of_emitTimes_nil (D : Int) :
    ∀ (ts : List Int) (st : Int), emitTimes D st ts = [] → throttleStates D st ts = st := by
  intro ts
  induction ts with
  | nil => intro st _; rfl
  | cons t rest ih =>
    intro st hnil
    by_cases h : D ≤ t - st
    · simp [emitTimes, h] at hnil
    · simp only [emitTimes, h, if_neg] at hnil
      simp only [throttleStates, List.foldl_cons, if_neg h]
      exact ih st hnil

/-- The default value of `getLastD` is irrelevant on a nonempty list. -/
theorem getLastD_default_irrelevant {α : Type} (l : List α) (hne : l ≠ []) (a b : α) :
    l.getLastD a = l.getLastD b := by
  cases l with
  | nil => exact absurd rfl hne
  | cons x xs => rw [List.getLastD_cons, List.getLastD_cons]

/-- When at least one call passes the elapsed-time test, the final
timestamp equals the last passing call time. -/
theorem throttleStates_eq_getLast (D : Int) :
    ∀ (ts : List Int) (st : Int), emitTimes D st ts ≠ [] →
      throttleStates D st ts = (emitTimes D st ts).getLastD 0 := by
  intro ts
  induction ts with
  | nil => intro st hne; exact absurd rfl hne
  | cons t rest ih =>
    intro st hne
    by_cases h : D ≤ t - st
    · simp only [emitTimes, if_pos h, throttleStates, List.foldl_cons, if_pos h]
      rw [List.getLastD_cons]
      by_cases hr : emitTimes D t rest = []
      · rw [hr, List.getLastD_nil]
        exact throttleStates_of_emitTimes_nil D rest t hr
      · show throttleStates D t rest = (emitTimes D t rest).getLastD t
        rw [ih t hr]
        exact getLastD_default_irrelevant _ hr 0 t
    · simp only [emitTimes, if_neg h] at hne ⊢
      simp only [throttleStates, List.foldl_cons, if_neg h]
      exact ih st hne

/-- C5: throttle window. With the severity enabled and formatting
succeeding, for a throttled call site exercised at clock times `ts` from
the initial timestamp 0 such that at least one emission occurred: the
per-call emission indicators are `emitFlags`; the stored timestamp equals
the time of the most recent emission (`(emitTimes D 0 ts).getLastD 0`);
the next invocation at time `t` emits iff `t` minus that last emission
time is at least `D`; and if that invocation is suppressed it leaves the
stored timestamp unchanged — the throttle window is measured from the
last emission, not the last attempt. -/
theorem c5_throttle_window (e : Severity → Bool) (n : String) (sig : List Char)
    (sev : Severity) (D : Int) (ts : List Int) (m m2 : String) (t : Int)
    (he : e sev = true) (hne : emitTimes D 0 ts ≠ []) :
    emitsOf (runThrottle e n sig sev D (ts.map fun u => (u, .ok m)) 0).1
      = emitFlags D 0 ts ∧
    (runThrottle e n sig sev D (ts.map fun u => (u, .ok m)) 0).2
      = (emitTimes D 0 ts).getLastD 0 ∧
    ((log_throttle e n sig sev D (.ok t)
        ((runThrottle e n sig sev D (ts.map fun u => (u, .ok m)) 0).2) (.ok m2)).1 ≠ []
      ↔ D ≤ t - (emitTimes D 0 ts).getLastD 0) ∧
    ((log_throttle e n sig sev D (.ok t)
        ((runThrottle e n sig sev D (ts.map fun u => (u, .ok m)) 0).2) (.ok m2)).1 = []
      → (log_throttle e n sig sev D (.ok t)
          ((runThrottle e n sig sev D (ts.map fun u => (u, .ok m)) 0).2) (.ok m2)).2.2
        = (runThrottle e n sig sev D (ts.map fun u => (u, .ok m)) 0).2) := by
  have hmap : ((ts.map fun u => ((u : Int), (Except.ok m : Except String String))).map
      Prod.fst) = ts := by
    rw [List.map_map]
    exact List.map_id ts
  have hstate : (runThrottle e n sig sev D (ts.map fun u => (u, .ok m)) 0).2
      = (emitTimes D 0 ts).getLastD 0 := by
    rw [runThrottle_state, hmap]
    exact throttleStates_eq_getLast D ts 0 hne
  refine ⟨runThrottle_flags e n sig sev D m he ts 0, hstate, ?_, ?_⟩
  · rw [hstate]
    generalize (emitTimes D 0 ts).getLastD 0 = L
    by_cases h : D ≤ t - L <;> simp [log_throttle, log, he, h]
  · intro hsupp
    rw [hstate] at hsupp ⊢
    generalize hL : (emitTimes D 0 ts).getLastD 0 = L at hsupp ⊢
    by_cases h : D ≤ t - L
    · simp [log_throttle, log, he, h] at hsupp
    · simp [log_throttle, h]

/-- Witness for `c5_throttle_window`: one prior call at time 100 with
duration 10 (which emits), then a next call at time 105: suppressed, and
the timestamp stays 100. -/
theorem c5_throttle_window_witness :
    emitsOf (runThrottle (fun _ => true) "ns" [] Severity.Fatal 10
        (([100] : List Int).map fun u => (u, .ok "x")) 0).1
      = emitFlags 10 0 [100] ∧
    (runThrottle (fun _ => true) "ns" [] Severity.Fatal 10
        (([100] : List Int).map fun u => (u, .ok "x")) 0).2
      = (emitTimes 10 0 [100]).getLastD 0 ∧
    ((log_throttle (fun _ => true) "ns" [] Severity.Fatal 10 (.ok 105)
        ((runThrottle (fun _ => true) "ns" [] Severity.Fatal 10
          (([100] : List Int).map fun u => (u, .ok "x")) 0).2) (.ok "y")).1 ≠ []
      ↔ (10 : Int) ≤ 105 - (emitTimes 10 0 [100]).getLastD 0) ∧
    ((log_throttle (fun _ => true) "ns" [] Severity.Fatal 10 (.ok 105)
        ((runThrottle (fun _ => true) "ns" [] Severity.Fatal 10
          (([100] : List Int).map fun u => (u, .ok "x")) 0).2) (.ok "y")).1 = []
      → (log_throttle (fun _ => true) "ns" [] Severity.Fatal 10 (.ok 105)
          ((runThrottle (fun _ => true) "ns" [] Severity.Fatal 10
            (([100] : List Int).map fun u => (u, .ok "x")) 0).2) (.ok "y")).2.2
        = (runThrottle (fun _ => true) "ns" [] Severity.Fatal 10
            (([100] : List Int).map fun u => (u, .ok "x")) 0).2) :=
  c5_throttle_window (fun _ => true) "ns" [] Severity.Fatal 10 [100] "x" "y" 105
    rfl (by decide)

/-- If reverse search finds nothing at or below `pos`, no index at or
below `pos` starts a `::` occurrence. -/
theorem rfindCC_none_sound (s : List Char) :
    ∀ pos, rfindCC s pos = none → ∀ j, j ≤ pos → isCCAt s j = false := by
  intro pos
  induction pos with
  | zero =>
    intro hnone j hj
    interval_cases j
    by_cases h : isCCAt s 0
    · simp [rfindCC, h] at hnone
    · simpa using h
  | succ p ih =>
    intro hnone j hj
    by_cases h : isCCAt s (p + 1)
    · simp [rfindCC, h] at hnone
    · rcases Nat.lt_succ_iff_lt_or_eq.mp (Nat.lt_succ_of_le hj) with hlt | heq
      · exact ih (by simpa [rfindCC, h] using hnone) j (Nat.lt_succ_iff.mp hlt)
      · subst heq; simpa using h

/-- If reverse search finds `j`, then `::` occurs at `j` and `j` is the
greatest index `≤ pos` at which it occurs (`Nat.findGreatest`). -/
theorem rfindCC_some_sound (s : List Char) :
    ∀ pos j, rfindCC s pos = some j →
      isCCAt s j = true ∧ j = Nat.findGreatest (fun k => isCCAt s k = true) pos := by
  intro pos
  induction pos with
  | zero =>
    intro j hj
    by_cases h : isCCAt s 0
    · simp only [rfindCC, if_pos h, Option.some.injEq] at hj
      subst hj
      exact ⟨h, by simp⟩
    · simp [rfindCC, h] at hj
  | succ p ih =>
    intro j hj
    by_cases h : isCCAt s (p + 1)
    · simp only [rfindCC, if_pos h, Option.some.injEq] at hj
      subst hj
      refine ⟨h, ?_⟩
      rw [Nat.findGreatest_succ, if_pos h]
    · simp only [rfindCC, if_neg h] at hj
      obtain ⟨hcc, hg⟩ := ih j hj
      refine ⟨hcc, ?_⟩
      rw [Nat.findGreatest_succ, if_neg (by simpa using h)]
      exact hg

/-- C9: the function name handed to the sink. For every signature string
containing an opening parenthesis (at first index `p`),
`extract_function_name` — the value forwarded as `function_name` by
`log` — equals the specification's description `specFunctionName`: the
substring strictly between the last occurrence of `::` preceding the
parenthesis and the parenthesis itself, or from the start of the string
when no `::` precedes it. -/
theorem c9_extract_function_name (s : List Char) (p : Nat)
    (hp : s.findIdx? (fun c => c == '(') = some p) :
    extract_function_name s = specFunctionName s := by
  unfold extract_function_name specFunctionName
  rw [hp]
  cases hr : rfindCC s p with
  | none =>
    have hg : isCCAt s (Nat.findGreatest (fun k => isCCAt s k = true) p) = false :=
      rfindCC_none_sound s p hr _ (Nat.findGreatest_le p)
    simp only [hr]
    simp [hg]
  | some j =>
    obtain ⟨hcc, hg⟩ := rfindCC_some_sound s p j hr
    simp only [hr]
    rw [← hg, if_pos hcc, List.drop_take]

/-- Witness for `c9_extract_function_name`: the qualified signature
`void ns::Cls::fn(int)` (first parenthesis at index 16). -/
theorem c9_extract_function_name_witness :
    extract_function_name ("void ns::Cls::fn(int)".toList)
      = specFunctionName ("void ns::Cls::fn(int)".toList) :=
  c9_extract_function_name ("void ns::Cls::fn(int)".toList) 16 (by decide)

end Ros2FmtLogger
